import Mathlib

/-
Verification of the checkpointed batch-embedding pipeline
(scripts/re_embed_codesearchnet_robust.py and
scripts/re_embed_codesearchnet_parallel.py).

Shallow embedding conventions:
- One partition (one language x split) is modelled at a time; the batch_id
  string "lang_split_batch_{start:06d}" is represented by its start offset
  (a Nat), which determines it within a partition.
- The SQLite checkpoint table is an association list keyed by that offset.
  INSERT OR REPLACE replaces the whole row (columns absent from the INSERT
  take their declared DEFAULT, so retry_count becomes 0); UPDATE rewrites
  the named columns of every matching row and is a no-op when no row
  matches.  Timestamp columns (start_time, end_time, created_at) are real
  time and are not modelled; no claim depends on them.
- Embedding vectors are opaque values (Vec := Nat); the claims only compare
  counts and identities of vectors, never float contents.
- The remote API is an environment: a script assigning to each attempt
  number the classified outcome of the HTTP round trip performed by
  embed_batch_with_retry.  Sleeps are recorded as waited seconds.
-/

/-- Vectors returned by the embedding endpoint, kept opaque. -/
abbrev Vec := Nat

/-- One row of the SQLite "batches" table (time columns omitted). -/
structure BatchRow where
  batch_index : Nat
  status : String
  retry_count : Nat
  error_message : Option String
  batch_size : Nat
deriving Repr, DecidableEq

/-- The checkpoint table: association list keyed by batch start offset. -/
abbrev Checkpoint := List (Nat × BatchRow)

/-- SELECT the row with the given key, if any. -/
def lookup : Checkpoint → Nat → Option BatchRow
  | [], _ => none
  | (k, r) :: rest, bid => if k = bid then some r else lookup rest bid

/-- INSERT OR REPLACE: replace the row with this key, or insert it. -/
def upsertRow : Checkpoint → Nat → BatchRow → Checkpoint
  | [], bid, row => [(bid, row)]
  | (k, r) :: rest, bid, row =>
      if k = bid then (bid, row) :: rest else (k, r) :: upsertRow rest bid row

/-- UPDATE ... WHERE batch_id = bid: rewrite matching rows, no-op if absent. -/
def updateRow : Checkpoint → Nat → (BatchRow → BatchRow) → Checkpoint
  | [], _, _ => []
  | (k, r) :: rest, bid, f =>
      if k = bid then (k, f r) :: updateRow rest bid f
      else (k, r) :: updateRow rest bid f

/-- CheckpointManager.mark_in_progress: INSERT OR REPLACE listing only
(batch_id, lang, split, batch_index, status, start_time, batch_size), so
retry_count takes its DEFAULT 0 and error_message becomes NULL. -/
def mark_in_progress (c : Checkpoint) (bid bidx bs : Nat) : Checkpoint :=
  upsertRow c bid
    { batch_index := bidx, status := "in_progress", retry_count := 0,
      error_message := none, batch_size := bs }

/-- CheckpointManager.mark_completed: UPDATE setting status to completed. -/
def mark_completed (c : Checkpoint) (bid : Nat) : Checkpoint :=
  updateRow c bid (fun r => { r with status := "completed" })

/-- CheckpointManager.mark_failed: UPDATE setting status failed and error_message. -/
def mark_failed (c : Checkpoint) (bid : Nat) (msg : String) : Checkpoint :=
  updateRow c bid
    (fun r => { r with status := "failed", error_message := some msg })

/-- CheckpointManager.increment_retry: UPDATE retry_count = retry_count + 1. -/
def increment_retry (c : Checkpoint) (bid : Nat) : Checkpoint :=
  updateRow c bid (fun r => { r with retry_count := r.retry_count + 1 })

/-- CheckpointManager.get_batch_status: (status, retry_count) of the row. -/
def get_batch_status (c : Checkpoint) (bid : Nat) : Option (String × Nat) :=
  (lookup c bid).map (fun r => (r.status, r.retry_count))

/-- CheckpointManager.get_completed_count: COUNT(*) of completed rows of the
partition (the partition filter is implicit: one table per partition here). -/
def get_completed_count (c : Checkpoint) : Nat :=
  (c.filter (fun p => p.2.status == "completed")).length

/-- Sum of batch_size over the completed rows: the quantity that the startup
integrity invariant of the spec compares to the persisted array length. -/
def completedSizeSum (c : Checkpoint) : Nat :=
  ((c.filter (fun p => p.2.status == "completed")).map
    (fun p => p.2.batch_size)).sum

lemma lookup_upsertRow (c : Checkpoint) (bid : Nat) (row : BatchRow) (k : Nat) :
    lookup (upsertRow c bid row) k = if k = bid then some row else lookup c k := by
  induction c with
  | nil =>
      by_cases h : k = bid
      · subst h; simp [upsertRow, lookup]
      · simp [upsertRow, lookup, h, Ne.symm h]
  | cons p rest ih =>
      obtain ⟨k0, r0⟩ := p
      by_cases h0 : k0 = bid
      · subst h0
        by_cases h : k = k0
        · subst h; simp [upsertRow, lookup]
        · simp [upsertRow, lookup, h, Ne.symm h]
      · by_cases h : k = k0
        · subst h
          have hkb : ¬ k = bid := h0
          simp [upsertRow, lookup, h0, hkb]
        · simp [upsertRow, lookup, h0, Ne.symm h, ih]

lemma lookup_updateRow (c : Checkpoint) (bid : Nat) (f : BatchRow → BatchRow)
    (k : Nat) :
    lookup (updateRow c bid f) k =
      if k = bid then (lookup c bid).map f else lookup c k := by
  induction c with
  | nil =>
      by_cases h : k = bid <;> simp [updateRow, lookup, h]
  | cons p rest ih =>
      obtain ⟨k0, r0⟩ := p
      by_cases h0 : k0 = bid
      · subst h0
        by_cases h : k = k0
        · subst h; simp [updateRow, lookup]
        · simp [updateRow, lookup, h, Ne.symm h, ih]
      · by_cases h : k = k0
        · subst h
          have hkb : ¬ k = bid := h0
          simp [updateRow, lookup, h0, hkb]
        · simp [updateRow, lookup, h0, Ne.symm h, ih]

/-- Text preparation: adaptive_truncation (texts are char lists, as Python
slicing operates on characters).  Returns the pair (truncated, tokens). -/
def adaptive_truncation (text : List Char) : List Char × Nat :=
  let length := text.length
  if length > 50000 then (text.take 15000, 4000)
  else if length > 30000 then (text.take 20000, 5000)
  else (text.take 30000, 8000)

/-
embed_batch_with_retry.  The HTTP round trip of each attempt is classified by the
code into the cases below; a script maps the attempt number (the loop
variable retry) to that classification.  Sleeps are recorded in seconds.
-/

/-- Classified outcome of one requests.post round trip, as distinguished by
embed_batch_with_retry.  String payloads model response.text or str(e). -/
inductive AttemptResult where
  | ok (vecs : List Vec)
  | err400TokenLimit (body : String)
  | err400Other (body : String)
  | err429
  | err503
  | errOther (code : Nat) (body : String)
  | timeout
  | connError
  | unexpected (msg : String)
deriving Repr, DecidableEq

/-- True for the outcomes whose handler is a bare continue (they consume one
iteration of the retry loop); false for success and the token-limit 400. -/
def isRetryable : AttemptResult → Bool
  | .ok _ => false
  | .err400TokenLimit _ => false
  | _ => true

/-- Error raised out of embed_batch_with_retry: the re-raised token-limit
ValueError, or the Exception raised after the retry budget is exhausted. -/
inductive RetryErr where
  | tokenLimit (msg : String)
  | exhausted (msg : String)
deriving Repr, DecidableEq

/-- Result of one embed_batch_with_retry call: the returned vectors or the
raised error, the checkpoint table after its side effects, and the seconds
slept immediately before each attempt (waits.length = attempts made). -/
structure RetryResult where
  result : Except RetryErr (List Vec)
  ckpt : Checkpoint
  waits : List Nat
deriving Repr

/-- Backoff slept just before attempt k: 10 * 3 ^ (k - 1) for k > 0. -/
def delayFor (k : Nat) : Nat := if k = 0 then 0 else 10 * 3 ^ (k - 1)

/-- Message of the Exception raised when all retries are exhausted. -/
def failMsg (maxRetries : Nat) : String :=
  "Failed after " ++ toString maxRetries ++ " retries"

/-- The for-retry-in-range(max_retries) loop of embed_batch_with_retry.
fuel = remaining iterations, k = current retry index, pending = seconds
already slept since the previous attempt (60 after a 429). -/
def retryAux (script : Nat → AttemptResult) (maxRetries bid : Nat) :
    Nat → Nat → Checkpoint → Nat → List Nat → RetryResult
  | 0, _, c, _, ws =>
      ⟨.error (.exhausted (failMsg maxRetries)),
       mark_failed c bid (failMsg maxRetries), ws⟩
  | fuel + 1, k, c, pending, ws =>
      let c1 := if k = 0 then c else increment_retry c bid
      let ws1 := ws ++ [pending + delayFor k]
      match script k with
      | .ok vecs => ⟨.ok vecs, c1, ws1⟩
      | .err400TokenLimit body =>
          ⟨.error (.tokenLimit ("Token limit exceeded: " ++ body)), c1, ws1⟩
      | .err400Other _ => retryAux script maxRetries bid fuel (k + 1) c1 0 ws1
      | .err429 => retryAux script maxRetries bid fuel (k + 1) c1 60 ws1
      | .err503 => retryAux script maxRetries bid fuel (k + 1) c1 0 ws1
      | .errOther _ _ => retryAux script maxRetries bid fuel (k + 1) c1 0 ws1
      | .timeout => retryAux script maxRetries bid fuel (k + 1) c1 0 ws1
      | .connError => retryAux script maxRetries bid fuel (k + 1) c1 0 ws1
      | .unexpected _ => retryAux script maxRetries bid fuel (k + 1) c1 0 ws1

/-- embed_batch_with_retry (the batch itself is summarized by the script:
the reply of the endpoint to each attempt). -/
def embedBatchWithRetry (script : Nat → AttemptResult) (bid : Nat)
    (c : Checkpoint) (maxRetries : Nat) : RetryResult :=
  retryAux script maxRetries bid maxRetries 0 c 0 []

/-
embed_dataset_robust: the per-partition while loop.  State mirrors the
Python locals plus the durable artifacts:
  embeddings    - the in-memory Python list
  persisted     - the contents of the .npy file (np.save writes embeddings)
  ckpt          - the checkpoint table
  batch_size    - the mutable working batch size
  current_index - the loop cursor
  calls         - log of embedding requests issued (start offset, size),
                  one entry per embed_batch_with_retry invocation (its
                  first attempt always performs a requests.post).
The script argument gives, for every (start offset, size), the reply of
the endpoint to each attempt of that batch.  The 0.6 s inter-batch sleep and the
progress bar perform no state change modelled here.
-/

/-- The per-batch environment: start offset, working size, attempt number
of embed_batch_with_retry, to the classified reply. -/
abbrev Script := Nat → Nat → Nat → AttemptResult

/-- State of the batch loop of embed_dataset_robust. -/
structure LoopState where
  embeddings : List Vec
  persisted : List Vec
  ckpt : Checkpoint
  batch_size : Nat
  current_index : Nat
  calls : List (Nat × Nat)
deriving Repr

/-- Test of the resume skip: the row exists and its status is completed. -/
def isCompletedStatus : Option (String × Nat) → Bool
  | some st => st.1 == "completed"
  | none => false

/-- Line 356: embeddings.extend(batch_embeddings). -/
def successExtend (vecs : List Vec) (s : LoopState) : LoopState :=
  { s with embeddings := s.embeddings ++ vecs }

/-- Line 357: checkpoint.mark_completed(batch_id). -/
def successMark (bid : Nat) (s : LoopState) : LoopState :=
  { s with ckpt := mark_completed s.ckpt bid }

/-- Lines 360-361: np.save(output_path, np.array(embeddings)). -/
def successSave (s : LoopState) : LoopState :=
  { s with persisted := s.embeddings }

/-- Line 364: current_index = batch_end. -/
def successAdvance (batchEnd : Nat) (s : LoopState) : LoopState :=
  { s with current_index := batchEnd }

/-- The success path of the loop body, in the order the code performs it:
extend, mark completed, save, advance. -/
def successPath (bid : Nat) (vecs : List Vec) (batchEnd : Nat)
    (s : LoopState) : LoopState :=
  successAdvance batchEnd (successSave (successMark bid (successExtend vecs s)))

/-- One iteration of the while-loop body of embed_dataset_robust.  An
error value is the uncaught exception that aborts the partition (the
re-raised count-mismatch ValueError); it carries the state at the raise. -/
def loopStep (texts : List String) (script : Script) (s : LoopState) :
    Except (String × LoopState) LoopState :=
  let batchStart := s.current_index
  let batchEnd := min (s.current_index + s.batch_size) texts.length
  let batch := (texts.drop batchStart).take (batchEnd - batchStart)
  if isCompletedStatus (get_batch_status s.ckpt batchStart) then
    .ok { s with current_index := batchEnd }
  else
    let s1 := { s with
      ckpt := mark_in_progress s.ckpt batchStart batchStart s.batch_size,
      calls := s.calls ++ [(batchStart, s.batch_size)] }
    let r := embedBatchWithRetry (script batchStart s.batch_size) batchStart
      s1.ckpt 5
    let s2 := { s1 with ckpt := r.ckpt }
    match r.result with
    | .ok vecs =>
        if vecs.length = batch.length then
          .ok (successPath batchStart vecs batchEnd s2)
        else
          .error ("Expected " ++ toString batch.length ++ " embeddings, got "
            ++ toString vecs.length, s2)
    | .error (.tokenLimit _) =>
        let bs2 := s.batch_size / 2
        if bs2 < 4 then
          let c3 := mark_failed s2.ckpt batchStart "Batch size reduction failed"
          .ok { s2 with batch_size := bs2, ckpt := c3, current_index := batchEnd }
        else
          .ok { s2 with batch_size := bs2 }
    | .error (.exhausted msg) =>
        let c3 := mark_failed s2.ckpt batchStart msg
        .ok { s2 with ckpt := c3, current_index := batchEnd }

/-- The while current_index < len(texts) loop, with fuel. -/
def loopRun (texts : List String) (script : Script) :
    Nat → LoopState → Except (String × LoopState) LoopState
  | 0, s => .ok s
  | fuel + 1, s =>
      if s.current_index < texts.length then
        match loopStep texts script s with
        | .ok s1 => loopRun texts script fuel s1
        | .error e => .error e
      else .ok s

/-- Lines 308-322: startup/resume.  If the output file exists its contents
become the in-memory list and the cursor is its length; the batch counter
shown in the log is len(embeddings) // initial_batch_size.  No comparison
against the checkpoint table is made.  A fresh partition is the special
case existing = [] (and an empty or absent checkpoint row set). -/
def resumeInit (existing : List Vec) (c : Checkpoint) (bs0 : Nat) : LoopState :=
  { embeddings := existing, persisted := existing, ckpt := c,
    batch_size := bs0, current_index := existing.length, calls := [] }

/-- The resume batch index printed at startup: len(embeddings) // bs0. -/
def resume_start_batch (existing : List Vec) (bs0 : Nat) : Nat :=
  existing.length / bs0

/-- Projection to the loop state carried by either outcome. -/
def stepState : Except (String × LoopState) LoopState → LoopState
  | .ok s => s
  | .error (_, s) => s

/-- True when the outcome is not an aborting exception. -/
def stepOk : Except (String × LoopState) LoopState → Bool
  | .ok _ => true
  | .error _ => false

/-
rate_limited_sleep (re_embed_codesearchnet_parallel.py, lines 52-70).
The body runs entirely inside "with rate_lock", so in the sequential model
one acquisition is one atomic step on the shared state.  Time is rational
seconds.  clock is the value time.time() would return now; last is the
shared last_request_time.value.  The step argument d models the(nonnegative)
real time that passes between the end of the sleep and the second
time.time() read that is stored.
-/

/-- Shared rate limiter state: the current clock and the shared timestamp. -/
structure RLState where
  clock : ℚ
  last : ℚ

/-- Minimum spacing between requests: 0.6 s (100 requests per minute). -/
def minInterval : ℚ := 6 / 10

/-- One call of rate_limited_sleep, executed under the lock. -/
def rate_limited_sleep (d : ℚ) (s : RLState) : RLState :=
  let elapsed := s.clock - s.last
  let afterSleep :=
    if elapsed < minInterval then s.clock + (minInterval - elapsed)
    else s.clock
  let stamped := afterSleep + d
  { clock := stamped, last := stamped }

/-- A sequence of acquisitions: each element (e, d) lets the clock advance
by e before the call (other work, other workers), then performs one
rate_limited_sleep with internal advance d.  The returned list is the
sequence of recorded values of last_request_time. -/
def rlRun : RLState → List (ℚ × ℚ) → List ℚ
  | _, [] => []
  | s, (e, d) :: rest =>
      let s1 := rate_limited_sleep d { clock := s.clock + e, last := s.last }
      s1.last :: rlRun s1 rest

/-
CheckpointManager operation sequences (for the retry_count claim).
-/

/-- One CheckpointManager call, as issued against a single batch table. -/
inductive CkptOp where
  | inProgress (bid bidx bs : Nat)
  | completed (bid : Nat)
  | failed (bid : Nat) (msg : String)
  | retry (bid : Nat)
deriving Repr, DecidableEq

/-- Apply one CheckpointManager call to the table. -/
def applyOp (c : Checkpoint) : CkptOp → Checkpoint
  | .inProgress bid bidx bs => mark_in_progress c bid bidx bs
  | .completed bid => mark_completed c bid
  | .failed bid msg => mark_failed c bid msg
  | .retry bid => increment_retry c bid

/-- retry_count stored for a batch (0 when the row does not exist yet,
matching the column DEFAULT). -/
def retryCountOf (c : Checkpoint) (bid : Nat) : Nat :=
  match lookup c bid with
  | some r => r.retry_count
  | none => 0

/-- Waits recorded by a retry-loop run all of whose attempts answer 429:
pending seconds before the first attempt shown, then 60 s (the post-429
sleep) plus the backoff before each later attempt. -/
def waits429 : Nat → Nat → Nat → List Nat
  | _, 0, _ => []
  | k, fuel + 1, pending => (pending + delayFor k) :: waits429 (k + 1) fuel 60

/-- The environment in which every batch succeeds at its first attempt and
returns exactly one embedding per prepared text, in order. -/
def goodScript (texts : List String) (embed : String → Vec) : Script :=
  fun start size _ => .ok (((texts.drop start).take size).map embed)

/-- Invariant of a fresh partition run under goodScript. -/
structure GoodInv (texts : List String) (embed : String → Vec) (bs0 : Nat)
    (s : LoopState) : Prop where
  bs : s.batch_size = bs0
  idx_le : s.current_index ≤ texts.length
  emb : s.embeddings = (texts.take s.current_index).map embed
  per : s.persisted = s.embeddings
  fresh : ∀ k, s.current_index ≤ k → lookup s.ckpt k = none

/-- Concrete C1 scenario, after mark_in_progress: a fresh partition of two
texts with batch size 2 whose first batch is in progress. -/
def c1Started : LoopState :=
  { embeddings := [], persisted := [], ckpt := mark_in_progress [] 0 0 2,
    batch_size := 2, current_index := 0, calls := [(0, 2)] }

/-- The intermediate state of the success path of the C1 scenario, after
embeddings.extend (line 356) and checkpoint.mark_completed (line 357) but
before np.save (lines 360-361). -/
def c1Mid : LoopState := successMark 0 (successExtend [7, 9] c1Started)

/-
Theorems.
-/

/-- C7: adaptive_truncation returns the first 15000 characters when the
input length exceeds 50000, the first 20000 when it exceeds 30000 but not
50000, and otherwise the input unchanged (truncating to 30000 characters
cannot shorten an input of length at most 30000). -/
theorem adaptive_truncation_policy (t : List Char) :
    (50000 < t.length →
      (adaptive_truncation t).1 = t.take 15000 ∧
        (adaptive_truncation t).1.length = 15000) ∧
    (30000 < t.length → t.length ≤ 50000 →
      (adaptive_truncation t).1 = t.take 20000 ∧
        (adaptive_truncation t).1.length = 20000) ∧
    (t.length ≤ 30000 → (adaptive_truncation t).1 = t) := by
  refine ⟨fun h => ?_, fun h1 h2 => ?_, fun h => ?_⟩
  · refine ⟨by simp [adaptive_truncation, h], ?_⟩
    simp only [adaptive_truncation, h, if_pos, List.length_take]
    omega
  · have hx : ¬ t.length > 50000 := by omega
    refine ⟨by simp [adaptive_truncation, hx, h1], ?_⟩
    simp only [adaptive_truncation, hx, h1, if_neg, if_pos, if_true,
      List.length_take]
    simp [hx, h1]
    omega
  · have hx : ¬ t.length > 50000 := by omega
    have hy : ¬ t.length > 30000 := by omega
    simp [adaptive_truncation, hx, hy, List.take_of_length_le h]

/-- Witness for adaptive_truncation_policy: a 60000-character input is cut
to exactly 15000 characters. -/
theorem adaptive_truncation_policy_witness :
    (adaptive_truncation (List.replicate 60000 'x')).1.length = 15000 :=
  ((adaptive_truncation_policy (List.replicate 60000 'x')).1
    (by norm_num)).2

/-- C8 counterexample: mark_in_progress is INSERT OR REPLACE without the
retry_count column, so it resets retry_count to the DEFAULT 0.  After
mark_in_progress, increment_retry, mark_in_progress on one batch the
stored retry_count drops from 1 back to 0: a decrease. -/
theorem mark_in_progress_resets_retry_count :
    retryCountOf (applyOp (applyOp [] (.inProgress 0 0 32)) (.retry 0)) 0
        = 1 ∧
    retryCountOf (applyOp (applyOp (applyOp [] (.inProgress 0 0 32))
        (.retry 0)) (.inProgress 0 0 32)) 0 = 0 ∧
    retryCountOf (applyOp (applyOp (applyOp [] (.inProgress 0 0 32))
        (.retry 0)) (.inProgress 0 0 32)) 0
      < retryCountOf (applyOp (applyOp [] (.inProgress 0 0 32)) (.retry 0)) 0
    := by
  refine ⟨rfl, rfl, ?_⟩
  decide

lemma retryCountOf_applyOp_mono (c : Checkpoint) (op : CkptOp) (bid : Nat)
    (h : ∀ bidx bs, op ≠ CkptOp.inProgress bid bidx bs) :
    retryCountOf c bid ≤ retryCountOf (applyOp c op) bid := by
  cases op with
  | inProgress b bidx bs =>
      have hb : ¬ bid = b := by
        intro hh; subst hh; exact h bidx bs rfl
      simp [applyOp, mark_in_progress, retryCountOf, lookup_upsertRow, hb]
  | completed b =>
      by_cases hb : bid = b
      · subst hb
        rcases hl : lookup c bid with _ | r <;>
          simp [applyOp, mark_completed, retryCountOf, lookup_updateRow, hl]
      · simp [applyOp, mark_completed, retryCountOf, lookup_updateRow, hb]
  | failed b msg =>
      by_cases hb : bid = b
      · subst hb
        rcases hl : lookup c bid with _ | r <;>
          simp [applyOp, mark_failed, retryCountOf, lookup_updateRow, hl]
      · simp [applyOp, mark_failed, retryCountOf, lookup_updateRow, hb]
  | retry b =>
      by_cases hb : bid = b
      · subst hb
        rcases hl : lookup c bid with _ | r <;>
          simp [applyOp, increment_retry, retryCountOf, lookup_updateRow, hl]
      · simp [applyOp, increment_retry, retryCountOf, lookup_updateRow, hb]

/-- C8 amended: across any sequence of CheckpointManager operations
containing no mark_in_progress for the batch in question, the stored
retry_count never decreases; mark_in_progress itself (INSERT OR REPLACE
without the retry_count column) resets the counter to 0. -/
theorem retry_count_monotone_without_reset (ops : List CkptOp)
    (c : Checkpoint) (bid : Nat)
    (h : ∀ op ∈ ops, ∀ bidx bs, op ≠ CkptOp.inProgress bid bidx bs) :
    retryCountOf c bid ≤ retryCountOf (ops.foldl applyOp c) bid := by
  induction ops generalizing c with
  | nil => simp
  | cons op rest ih =>
      rw [List.foldl_cons]
      exact le_trans
        (retryCountOf_applyOp_mono c op bid (h op (by simp)))
        (ih (applyOp c op) (fun o ho => h o (by simp [ho])))

/-- Witness: a concrete reset-free operation sequence. -/
theorem retry_count_monotone_without_reset_witness :
    retryCountOf [(0, ⟨0, "in_progress", 2, none, 4⟩)] 0 ≤
      retryCountOf ([CkptOp.retry 0, CkptOp.completed 0].foldl applyOp
        [(0, ⟨0, "in_progress", 2, none, 4⟩)]) 0 :=
  retry_count_monotone_without_reset _ _ 0
    (by intro op hop bidx bs; simp at hop; rcases hop with rfl | rfl <;> simp)

lemma rate_limited_sleep_spacing (d : ℚ) (hd : 0 ≤ d) (s : RLState) :
    s.last + minInterval ≤ (rate_limited_sleep d s).last := by
  simp only [rate_limited_sleep]
  split_ifs with h <;> linarith

lemma rlRun_chain (ps : List (ℚ × ℚ)) :
    ∀ s : RLState, (∀ p ∈ ps, 0 ≤ p.2) →
      List.Chain' (fun a b => a + minInterval ≤ b) (s.last :: rlRun s ps) := by
  induction ps with
  | nil => intro s _; simp [rlRun]
  | cons p rest ih =>
      intro s hp
      obtain ⟨e, d⟩ := p
      have hd : 0 ≤ d := hp (e, d) (by simp)
      simp only [rlRun]
      refine List.chain'_cons.2 ⟨?_, ?_⟩
      · exact rate_limited_sleep_spacing d hd ⟨s.clock + e, s.last⟩
      · exact ih _ (fun q hq => hp q (by simp [hq]))

/-- C6: modelling each rate_limited_sleep call as one atomic step on the
shared timestamp (the whole read-modify-write body runs inside the single
with rate_lock block, lines 61-70), any two consecutive recorded
acquisition timestamps are at least minInterval = 0.6 s apart, for every
initial state and every sequence of nonnegative time advances. -/
theorem rate_limiter_min_interval (s0 : RLState) (ps : List (ℚ × ℚ))
    (h : ∀ p ∈ ps, 0 ≤ p.2) :
    List.Chain' (fun a b => a + minInterval ≤ b) (rlRun s0 ps) :=
  (rlRun_chain ps s0 h).tail

/-- Witness for rate_limiter_min_interval: two back-to-back acquisitions. -/
theorem rate_limiter_min_interval_witness :
    List.Chain' (fun a b => a + minInterval ≤ b)
      (rlRun ⟨0, 0⟩ [(0, 0), (0, 0)]) :=
  rate_limiter_min_interval ⟨0, 0⟩ [(0, 0), (0, 0)]
    (by intro p hp; simp at hp; subst hp; norm_num)

/-- C1: in the success path the code calls checkpoint.mark_completed (line
357) before np.save (lines 360-361).  For a fresh two-text partition whose
only batch embeds successfully, the executed loop body is exactly
save-then-advance applied to an intermediate state mid reached after
mark_completed, and in mid the checkpoint already reports the batch
completed while the persisted array holds none of its vectors.  This
refutes the claimed persist-before-mark-completed ordering at a concrete
run. -/
theorem mark_completed_precedes_save :
    loopStep ["a", "b"] (fun _ _ _ => .ok [7, 9]) (resumeInit [] [] 2)
        = .ok (successAdvance 2 (successSave c1Mid)) ∧
    get_batch_status c1Mid.ckpt 0 = some ("completed", 0) ∧
    c1Mid.persisted = [] ∧ c1Mid.embeddings = [7, 9] := by
  exact ⟨rfl, rfl, rfl, rfl⟩

lemma failMsg_five : failMsg 5 = "Failed after 5 retries" := rfl

lemma retryAux_exhaust (script : Nat → AttemptResult) (maxRetries bid : Nat)
    (hall : ∀ j, isRetryable (script j) = true) :
    ∀ fuel k c pending ws,
      (retryAux script maxRetries bid fuel k c pending ws).result
          = .error (.exhausted (failMsg maxRetries)) ∧
      ∀ r : BatchRow, lookup c bid = some r →
        ∃ rc, lookup (retryAux script maxRetries bid fuel k c pending ws).ckpt
            bid
          = some ⟨r.batch_index, "failed", rc, some (failMsg maxRetries),
              r.batch_size⟩ := by
  intro fuel
  induction fuel with
  | zero =>
      intro k c pending ws
      refine ⟨rfl, fun r hr => ⟨r.retry_count, ?_⟩⟩
      simp [retryAux, mark_failed, lookup_updateRow, hr]
  | succ fuel ih =>
      intro k c pending ws
      have hk := hall k
      cases hsk : script k with
      | ok vecs => rw [hsk] at hk; simp [isRetryable] at hk
      | err400TokenLimit body => rw [hsk] at hk; simp [isRetryable] at hk
      | err400Other body =>
          simp only [retryAux, hsk]
          refine ⟨(ih _ _ _ _).1, fun r hr => ?_⟩
          by_cases hk0 : k = 0
          · simp only [hk0, if_pos]
            exact (ih _ _ _ _).2 r hr
          · simp only [hk0, if_neg, ite_false]
            have hr1 : lookup (increment_retry c bid) bid
                = some { r with retry_count := r.retry_count + 1 } := by
              simp [increment_retry, lookup_updateRow, hr]
            exact (ih _ _ _ _).2 { r with retry_count := r.retry_count + 1 } hr1
      | err429 =>
          simp only [retryAux, hsk]
          refine ⟨(ih _ _ _ _).1, fun r hr => ?_⟩
          by_cases hk0 : k = 0
          · simp only [hk0, if_pos]
            exact (ih _ _ _ _).2 r hr
          · simp only [hk0, if_neg, ite_false]
            have hr1 : lookup (increment_retry c bid) bid
                = some { r with retry_count := r.retry_count + 1 } := by
              simp [increment_retry, lookup_updateRow, hr]
            exact (ih _ _ _ _).2 { r with retry_count := r.retry_count + 1 } hr1
      | err503 =>
          simp only [retryAux, hsk]
          refine ⟨(ih _ _ _ _).1, fun r hr => ?_⟩
          by_cases hk0 : k = 0
          · simp only [hk0, if_pos]
            exact (ih _ _ _ _).2 r hr
          · simp only [hk0, if_neg, ite_false]
            have hr1 : lookup (increment_retry c bid) bid
                = some { r with retry_count := r.retry_count + 1 } := by
              simp [increment_retry, lookup_updateRow, hr]
            exact (ih _ _ _ _).2 { r with retry_count := r.retry_count + 1 } hr1
      | errOther code body =>
          simp only [retryAux, hsk]
          refine ⟨(ih _ _ _ _).1, fun r hr => ?_⟩
          by_cases hk0 : k = 0
          · simp only [hk0, if_pos]
            exact (ih _ _ _ _).2 r hr
          · simp only [hk0, if_neg, ite_false]
            have hr1 : lookup (increment_retry c bid) bid
                = some { r with retry_count := r.retry_count + 1 } := by
              simp [increment_retry, lookup_updateRow, hr]
            exact (ih _ _ _ _).2 { r with retry_count := r.retry_count + 1 } hr1
      | timeout =>
          simp only [retryAux, hsk]
          refine ⟨(ih _ _ _ _).1, fun r hr => ?_⟩
          by_cases hk0 : k = 0
          · simp only [hk0, if_pos]
            exact (ih _ _ _ _).2 r hr
          · simp only [hk0, if_neg, ite_false]
            have hr1 : lookup (increment_retry c bid) bid
                = some { r with retry_count := r.retry_count + 1 } := by
              simp [increment_retry, lookup_updateRow, hr]
            exact (ih _ _ _ _).2 { r with retry_count := r.retry_count + 1 } hr1
      | connError =>
          simp only [retryAux, hsk]
          refine ⟨(ih _ _ _ _).1, fun r hr => ?_⟩
          by_cases hk0 : k = 0
          · simp only [hk0, if_pos]
            exact (ih _ _ _ _).2 r hr
          · simp only [hk0, if_neg, ite_false]
            have hr1 : lookup (increment_retry c bid) bid
                = some { r with retry_count := r.retry_count + 1 } := by
              simp [increment_retry, lookup_updateRow, hr]
            exact (ih _ _ _ _).2 { r with retry_count := r.retry_count + 1 } hr1
      | unexpected msg =>
          simp only [retryAux, hsk]
          refine ⟨(ih _ _ _ _).1, fun r hr => ?_⟩
          by_cases hk0 : k = 0
          · simp only [hk0, if_pos]
            exact (ih _ _ _ _).2 r hr
          · simp only [hk0, if_neg, ite_false]
            have hr1 : lookup (increment_retry c bid) bid
                = some { r with retry_count := r.retry_count + 1 } := by
              simp [increment_retry, lookup_updateRow, hr]
            exact (ih _ _ _ _).2 { r with retry_count := r.retry_count + 1 } hr1

lemma retryAux_waits_429 (script : Nat → AttemptResult) (maxRetries bid : Nat)
    (hall : ∀ j, script j = .err429) :
    ∀ fuel k c pending ws,
      (retryAux script maxRetries bid fuel k c pending ws).waits
        = ws ++ waits429 k fuel pending := by
  intro fuel
  induction fuel with
  | zero => intro k c pending ws; simp [retryAux, waits429]
  | succ fuel ih =>
      intro k c pending ws
      simp only [retryAux, hall k, waits429]
      rw [ih]
      simp

/-- C10: each HTTP 429 consumes one iteration of the same max_retries
budget: with all attempts answering 429 and the batch row present (as the
driver guarantees via mark_in_progress), embed_batch_with_retry makes
exactly 5 attempts, sleeps at least 60 seconds before every attempt after
the first, marks the batch failed, and raises the exhaustion exception. -/
theorem rate_limit_429_consumes_budget (script : Nat → AttemptResult)
    (bid : Nat) (c : Checkpoint) (r0 : BatchRow)
    (hall : ∀ j, script j = .err429) (hrow : lookup c bid = some r0) :
    (embedBatchWithRetry script bid c 5).result
        = .error (.exhausted "Failed after 5 retries") ∧
    (∃ rc, lookup (embedBatchWithRetry script bid c 5).ckpt bid
        = some ⟨r0.batch_index, "failed", rc,
            some "Failed after 5 retries", r0.batch_size⟩) ∧
    (embedBatchWithRetry script bid c 5).waits = [0, 70, 90, 150, 330] ∧
    (embedBatchWithRetry script bid c 5).waits.length = 5 ∧
    ∀ w ∈ (embedBatchWithRetry script bid c 5).waits.tail, 60 ≤ w := by
  have hretry : ∀ j, isRetryable (script j) = true := by
    intro j; rw [hall j]; rfl
  have hex := retryAux_exhaust script 5 bid hretry 5 0 c 0 []
  have hw := retryAux_waits_429 script 5 bid hall 5 0 c 0 []
  have hwl : (embedBatchWithRetry script bid c 5).waits
      = [0, 70, 90, 150, 330] := by
    rw [embedBatchWithRetry, hw]; rfl
  refine ⟨?_, ?_, hwl, ?_, ?_⟩
  · rw [embedBatchWithRetry, hex.1, failMsg_five]
  · rw [embedBatchWithRetry]
    simpa [failMsg_five] using hex.2 r0 hrow
  · rw [hwl]; rfl
  · rw [hwl]; decide

/-- Witness for rate_limit_429_consumes_budget at a concrete table. -/
theorem rate_limit_429_consumes_budget_witness :
    (embedBatchWithRetry (fun _ => .err429) 0
        [(0, ⟨0, "in_progress", 0, none, 32⟩)] 5).waits
      = [0, 70, 90, 150, 330] :=
  (rate_limit_429_consumes_budget (fun _ => .err429) 0
    [(0, ⟨0, "in_progress", 0, none, 32⟩)] ⟨0, "in_progress", 0, none, 32⟩
    (fun _ => rfl) rfl).2.2.1

/-- C4 counterexample: with every attempt failing as an unexpected error
whose text is boom, the batch ends failed with the fixed message
Failed after 5 retries, which is not the message of the last error. -/
theorem exhaustion_message_is_generic :
    let script : Nat → AttemptResult := fun _ => .unexpected "boom"
    let c0 : Checkpoint := [(0, ⟨0, "in_progress", 0, none, 32⟩)]
    script 4 = .unexpected "boom" ∧
    (embedBatchWithRetry script 0 c0 5).result
        = .error (.exhausted "Failed after 5 retries") ∧
    (lookup (embedBatchWithRetry script 0 c0 5).ckpt 0).map
        (fun row => row.error_message)
      = some (some "Failed after 5 retries") ∧
    "Failed after 5 retries" ≠ "boom" := by
  refine ⟨rfl, rfl, rfl, by decide⟩

/-- C4 amended: when all max_retries attempts of a batch are consumed by
retryable errors, the batch ends failed in the checkpoint store with the
fixed message Failed after 5 retries (the code stores this generic string,
not the text of the last error), and the per-partition loop advances past
the batch to the next offset instead of halting the partition. -/
theorem retries_exhausted_marks_failed_and_advances
    (texts : List String) (script : Script) (s : LoopState)
    (hskip : isCompletedStatus (get_batch_status s.ckpt s.current_index)
      = false)
    (hall : ∀ j, isRetryable (script s.current_index s.batch_size j) = true) :
    ∃ s2, loopStep texts script s = .ok s2 ∧
      (∃ rc, lookup s2.ckpt s.current_index
          = some ⟨s.current_index, "failed", rc,
              some "Failed after 5 retries", s.batch_size⟩) ∧
      s2.current_index = min (s.current_index + s.batch_size) texts.length ∧
      s2.batch_size = s.batch_size := by
  have hex := retryAux_exhaust (script s.current_index s.batch_size) 5
    s.current_index hall 5 0
    (mark_in_progress s.ckpt s.current_index s.current_index s.batch_size)
    0 []
  have hrow : lookup (mark_in_progress s.ckpt s.current_index s.current_index
      s.batch_size) s.current_index
      = some ⟨s.current_index, "in_progress", 0, none, s.batch_size⟩ := by
    simp [mark_in_progress, lookup_upsertRow]
  have hres : (embedBatchWithRetry (script s.current_index s.batch_size)
      s.current_index (mark_in_progress s.ckpt s.current_index s.current_index
      s.batch_size) 5).result = .error (.exhausted (failMsg 5)) := hex.1
  obtain ⟨rc, hrc⟩ := hex.2 _ hrow
  have hrc1 : lookup (embedBatchWithRetry (script s.current_index s.batch_size)
      s.current_index (mark_in_progress s.ckpt s.current_index s.current_index
      s.batch_size) 5).ckpt s.current_index
      = some ⟨s.current_index, "failed", rc, some (failMsg 5), s.batch_size⟩ :=
    hrc
  refine ⟨{ embeddings := s.embeddings, persisted := s.persisted,
            ckpt := mark_failed (embedBatchWithRetry (script s.current_index
              s.batch_size) s.current_index (mark_in_progress s.ckpt
              s.current_index s.current_index s.batch_size) 5).ckpt
              s.current_index (failMsg 5),
            batch_size := s.batch_size,
            current_index := min (s.current_index + s.batch_size) texts.length,
            calls := s.calls ++ [(s.current_index, s.batch_size)] },
    ?_, ⟨rc, ?_⟩, rfl, rfl⟩
  · simp only [loopStep, hskip, Bool.false_eq_true, if_false]
    rw [hres]
  · simp only [mark_failed, lookup_updateRow, if_pos, hrc1, Option.map_some,
      failMsg_five]
    rfl

/-- Witness for retries_exhausted_marks_failed_and_advances. -/
theorem retries_exhausted_marks_failed_and_advances_witness :
    ∃ s2, loopStep ["a", "b", "c"] (fun _ _ _ => .timeout)
        (resumeInit [] [] 2) = .ok s2 ∧
      (∃ rc, lookup s2.ckpt 0
          = some ⟨0, "failed", rc, some "Failed after 5 retries", 2⟩) ∧
      s2.current_index = min (0 + 2) 3 ∧
      s2.batch_size = 2 :=
  retries_exhausted_marks_failed_and_advances ["a", "b", "c"]
    (fun _ _ _ => .timeout) (resumeInit [] [] 2) rfl (fun _ => rfl)

lemma retryAux_step_tokenLimit (script : Nat → AttemptResult)
    (maxRetries bid fuel : Nat) (c : Checkpoint) (pending : Nat)
    (ws : List Nat) (body : String)
    (h : script 0 = .err400TokenLimit body) :
    retryAux script maxRetries bid (fuel + 1) 0 c pending ws =
      ⟨.error (.tokenLimit ("Token limit exceeded: " ++ body)), c,
        ws ++ [pending + delayFor 0]⟩ := by
  simp [retryAux, h]

lemma retryAux_step_ok (script : Nat → AttemptResult)
    (maxRetries bid fuel : Nat) (c : Checkpoint) (pending : Nat)
    (ws : List Nat) (vecs : List Vec) (h : script 0 = .ok vecs) :
    retryAux script maxRetries bid (fuel + 1) 0 c pending ws =
      ⟨.ok vecs, c, ws ++ [pending + delayFor 0]⟩ := by
  simp [retryAux, h]

/-- C5: on an HTTP 400 token-limit error the loop halves the working batch
size; while the halved size is at least the floor 4 it retries the same
start offset without advancing, and when the halved size falls below 4 the
batch is marked permanently failed and the offset advances past it. -/
theorem token_limit_halves_or_fails
    (texts : List String) (script : Script) (s : LoopState) (body : String)
    (hskip : isCompletedStatus (get_batch_status s.ckpt s.current_index)
      = false)
    (hfirst : script s.current_index s.batch_size 0
      = .err400TokenLimit body) :
    (4 ≤ s.batch_size / 2 →
      ∃ s2, loopStep texts script s = .ok s2 ∧
        s2.current_index = s.current_index ∧
        s2.batch_size = s.batch_size / 2) ∧
    (s.batch_size / 2 < 4 →
      ∃ s2, loopStep texts script s = .ok s2 ∧
        s2.batch_size = s.batch_size / 2 ∧
        s2.current_index = min (s.current_index + s.batch_size) texts.length ∧
        lookup s2.ckpt s.current_index
          = some ⟨s.current_index, "failed", 0,
              some "Batch size reduction failed", s.batch_size⟩) := by
  have hr : embedBatchWithRetry (script s.current_index s.batch_size)
      s.current_index (mark_in_progress s.ckpt s.current_index s.current_index
      s.batch_size) 5
      = ⟨.error (.tokenLimit ("Token limit exceeded: " ++ body)),
          mark_in_progress s.ckpt s.current_index s.current_index s.batch_size,
          [0 + delayFor 0]⟩ :=
    retryAux_step_tokenLimit _ 5 _ 4 _ 0 [] body hfirst
  constructor
  · intro h4
    have h4n : ¬ s.batch_size / 2 < 4 := by omega
    refine ⟨{ embeddings := s.embeddings, persisted := s.persisted,
              ckpt := mark_in_progress s.ckpt s.current_index s.current_index
                s.batch_size,
              batch_size := s.batch_size / 2,
              current_index := s.current_index,
              calls := s.calls ++ [(s.current_index, s.batch_size)] },
      ?_, rfl, rfl⟩
    simp only [loopStep, hskip, Bool.false_eq_true, if_false, hr]
    rw [if_neg h4n]
  · intro h4
    refine ⟨{ embeddings := s.embeddings, persisted := s.persisted,
              ckpt := mark_failed (mark_in_progress s.ckpt s.current_index
                s.current_index s.batch_size) s.current_index
                "Batch size reduction failed",
              batch_size := s.batch_size / 2,
              current_index := min (s.current_index + s.batch_size)
                texts.length,
              calls := s.calls ++ [(s.current_index, s.batch_size)] },
      ?_, rfl, rfl, ?_⟩
    · simp only [loopStep, hskip, Bool.false_eq_true, if_false, hr]
      rw [if_pos h4]
    · simp [mark_failed, lookup_updateRow, mark_in_progress, lookup_upsertRow]

/-- Witness for token_limit_halves_or_fails: a batch size of 32 halves to
16 and the loop stays at the same offset. -/
theorem token_limit_halves_or_fails_witness :
    ∃ s2, loopStep ["a", "b", "c"]
        (fun _ _ _ => .err400TokenLimit "max allowed tokens")
        (resumeInit [] [] 32) = .ok s2 ∧
      s2.current_index = 0 ∧
      s2.batch_size = 32 / 2 :=
  (token_limit_halves_or_fails ["a", "b", "c"]
    (fun _ _ _ => .err400TokenLimit "max allowed tokens")
    (resumeInit [] [] 32) "max allowed tokens" rfl rfl).1 (by decide)

lemma loopStep_batch_size_le (texts : List String) (script : Script)
    (s s2 : LoopState) (h : loopStep texts script s = .ok s2) :
    s2.batch_size ≤ s.batch_size := by
  simp only [loopStep] at h
  split at h
  · simp only [Except.ok.injEq] at h
    subst h
    exact le_refl _
  · split at h
    · split at h
      · simp only [Except.ok.injEq] at h
        subst h
        simp [successPath, successAdvance, successSave, successMark,
          successExtend]
      · exact absurd h (by simp)
    · split at h
      · simp only [Except.ok.injEq] at h
        subst h
        exact Nat.div_le_self _ _
      · simp only [Except.ok.injEq] at h
        subst h
        exact Nat.div_le_self _ _
    · simp only [Except.ok.injEq] at h
      subst h
      exact le_refl _

/-- C9: across any run of the partition loop the working batch size never
increases: each iteration leaves batch_size unchanged or halves it, so once
reduced by a token-limit error it is never restored toward the initial
size, even after later batches succeed. -/
theorem batch_size_never_increases (texts : List String) (script : Script)
    (fuel : Nat) (s sf : LoopState)
    (h : loopRun texts script fuel s = .ok sf) :
    sf.batch_size ≤ s.batch_size := by
  induction fuel generalizing s with
  | zero =>
      simp only [loopRun, Except.ok.injEq] at h
      subst h; exact le_refl _
  | succ fuel ih =>
      simp only [loopRun] at h
      split at h
      · cases hs : loopStep texts script s with
        | ok s1 =>
            rw [hs] at h
            exact le_trans (ih s1 h)
              (loopStep_batch_size_le texts script s s1 hs)
        | error e =>
            rw [hs] at h
            exact absurd h (by simp)
      · simp only [Except.ok.injEq] at h
        subst h; exact le_refl _

/-- Witness for batch_size_never_increases: a run that halves 8 to 4, then
fails the batch when the next halving drops below the floor. -/
theorem batch_size_never_increases_witness :
    (stepState (loopRun ["a", "b"]
        (fun _ _ _ => .err400TokenLimit "max allowed tokens") 3
        (resumeInit [] [] 8))).batch_size
      ≤ (resumeInit [] [] 8).batch_size :=
  batch_size_never_increases ["a", "b"]
    (fun _ _ _ => .err400TokenLimit "max allowed tokens") 3
    (resumeInit [] [] 8) _ rfl

/-- C3 counterexample: resume performs no integrity check.  With one
completed checkpoint batch of size 4 but an existing persisted array of
length 3 (corrupted state: completedSizeSum 4 differs from the array
length), the run does not halt with a fatal error: the first loop
iteration issues an embedding call and continues. -/
theorem resume_mismatch_not_halted :
    let ckpt0 : Checkpoint := [(0, ⟨0, "completed", 0, none, 4⟩)]
    let existing : List Vec := [10, 11, 12]
    let texts := ["t0", "t1", "t2", "t3", "t4", "t5", "t6", "t7"]
    let script : Script := fun _ _ _ => .ok [1, 2, 3, 4]
    completedSizeSum ckpt0 = 4 ∧
    existing.length = 3 ∧
    completedSizeSum ckpt0 ≠ existing.length ∧
    stepOk (loopStep texts script (resumeInit existing ckpt0 4)) = true ∧
    (stepState (loopStep texts script (resumeInit existing ckpt0 4))).calls
      = [(3, 4)] := by
  exact ⟨rfl, rfl, by decide, rfl, rfl⟩

/-- C3 amended: startup/resume performs no integrity comparison: the cursor
becomes the length of the existing persisted array, and for every
checkpoint table - mismatched against that length or not - whose row at the
resume offset is not completed, the first loop iteration issues an
embedding call rather than halting. -/
theorem resume_ignores_checkpoint_mismatch (existing : List Vec)
    (c : Checkpoint) (bs0 : Nat) (texts : List String) (script : Script)
    (hnc : isCompletedStatus (get_batch_status c existing.length) = false) :
    (resumeInit existing c bs0).current_index = existing.length ∧
    (stepState (loopStep texts script (resumeInit existing c bs0))).calls
      = [(existing.length, bs0)] := by
  refine ⟨rfl, ?_⟩
  simp only [loopStep, resumeInit, hnc, Bool.false_eq_true, if_false]
  split
  · split <;>
      simp [stepState, successPath, successAdvance, successSave, successMark,
        successExtend]
  · split <;> simp [stepState]
  · simp [stepState]

/-- Witness for resume_ignores_checkpoint_mismatch at the corrupted state
of the counterexample. -/
theorem resume_ignores_checkpoint_mismatch_witness :
    (resumeInit [10, 11, 12] [(0, ⟨0, "completed", 0, none, 4⟩)]
        4).current_index = 3 ∧
    (stepState (loopStep ["t0", "t1", "t2", "t3", "t4", "t5", "t6", "t7"]
        (fun _ _ _ => .ok [1, 2, 3, 4])
        (resumeInit [10, 11, 12]
          [(0, ⟨0, "completed", 0, none, 4⟩)] 4))).calls
      = [(3, 4)] :=
  resume_ignores_checkpoint_mismatch [10, 11, 12]
    [(0, ⟨0, "completed", 0, none, 4⟩)] 4
    ["t0", "t1", "t2", "t3", "t4", "t5", "t6", "t7"]
    (fun _ _ _ => .ok [1, 2, 3, 4]) rfl

/-- C2 counterexample: when a batch is permanently marked failed the loop
advances without appending vectors, so the persisted array no longer has
one vector per source record.  Concretely: 8 records, batch size 4, the
first batch succeeds and the second exhausts its retries; the run ends
with 4 persisted vectors for 8 source records. -/
theorem failed_batch_breaks_alignment :
    let texts := ["t0", "t1", "t2", "t3", "t4", "t5", "t6", "t7"]
    let script : Script := fun start _ _ =>
      if start = 0 then .ok [1, 2, 3, 4] else .unexpected "boom"
    stepOk (loopRun texts script 3 (resumeInit [] [] 4)) = true ∧
    (stepState (loopRun texts script 3
        (resumeInit [] [] 4))).current_index = 8 ∧
    (stepState (loopRun texts script 3
        (resumeInit [] [] 4))).persisted.length = 4 ∧
    texts.length = 8 ∧
    (stepState (loopRun texts script 3 (resumeInit [] [] 4))).persisted.length
      ≠ texts.length := by
  exact ⟨rfl, rfl, rfl, rfl, by decide⟩

lemma goodStep (texts : List String) (embed : String → Vec) (bs0 : Nat)
    (s : LoopState) (hInv : GoodInv texts embed bs0 s)
    (hlt : s.current_index < texts.length) (hbs : 0 < bs0) :
    ∃ s2, loopStep texts (goodScript texts embed) s = .ok s2 ∧
      GoodInv texts embed bs0 s2 ∧
      s.current_index < s2.current_index := by
  obtain ⟨hbs_eq, hidx, hemb, hper, hfresh⟩ := hInv
  have hskip : isCompletedStatus (get_batch_status s.ckpt s.current_index)
      = false := by
    simp [get_batch_status, hfresh s.current_index le_rfl, isCompletedStatus]
  have hr : embedBatchWithRetry
      (goodScript texts embed s.current_index s.batch_size) s.current_index
      (mark_in_progress s.ckpt s.current_index s.current_index s.batch_size) 5
      = ⟨.ok (((texts.drop s.current_index).take s.batch_size).map embed),
          mark_in_progress s.ckpt s.current_index s.current_index
            s.batch_size,
          [0 + delayFor 0]⟩ :=
    retryAux_step_ok _ 5 _ 4 _ 0 [] _ rfl
  have hlen : (((texts.drop s.current_index).take s.batch_size).map
        embed).length
      = ((texts.drop s.current_index).take
          (min (s.current_index + s.batch_size) texts.length
            - s.current_index)).length := by
    simp only [List.length_map, List.length_take, List.length_drop]
    omega
  have htk : (texts.drop s.current_index).take s.batch_size
      = (texts.drop s.current_index).take
          (min (s.current_index + s.batch_size) texts.length
            - s.current_index) := by
    rw [List.take_eq_take]
    simp only [List.length_drop]
    omega
  refine ⟨{ embeddings := s.embeddings
              ++ ((texts.drop s.current_index).take s.batch_size).map embed,
            persisted := s.embeddings
              ++ ((texts.drop s.current_index).take s.batch_size).map embed,
            ckpt := mark_completed (mark_in_progress s.ckpt s.current_index
              s.current_index s.batch_size) s.current_index,
            batch_size := s.batch_size,
            current_index := min (s.current_index + s.batch_size)
              texts.length,
            calls := s.calls ++ [(s.current_index, s.batch_size)] },
    ?_, ?_, ?_⟩
  · simp only [loopStep, hskip, Bool.false_eq_true, if_false, hr]
    rw [if_pos hlen]
    rfl
  · have hemb2 : s.embeddings
        ++ ((texts.drop s.current_index).take s.batch_size).map embed
        = (texts.take (min (s.current_index + s.batch_size)
            texts.length)).map embed := by
      rw [hemb, htk, ← List.map_append]
      congr 1
      rw [← List.take_add]
      congr 1
      omega
    refine ⟨hbs_eq, Nat.min_le_right _ _, hemb2, rfl, ?_⟩
    intro k hk
    have hk1 : min (s.current_index + s.batch_size) texts.length ≤ k := hk
    have hne : ¬ k = s.current_index := by omega
    simp only [mark_completed, lookup_updateRow, if_neg hne,
      mark_in_progress, lookup_upsertRow]
    exact hfresh k (by omega)
  · show s.current_index < min (s.current_index + s.batch_size) texts.length
    omega

lemma goodRun (texts : List String) (embed : String → Vec) (bs0 : Nat)
    (hbs : 0 < bs0) :
    ∀ fuel s, GoodInv texts embed bs0 s →
      texts.length - s.current_index ≤ fuel →
      ∃ sf, loopRun texts (goodScript texts embed) fuel s = .ok sf ∧
        GoodInv texts embed bs0 sf ∧ sf.current_index = texts.length := by
  intro fuel
  induction fuel with
  | zero =>
      intro s hInv hf
      have heq : s.current_index = texts.length := by
        have := hInv.idx_le; omega
      exact ⟨s, rfl, hInv, heq⟩
  | succ fuel ih =>
      intro s hInv hf
      by_cases hlt : s.current_index < texts.length
      · obtain ⟨s2, hstep, hInv2, hprog⟩ :=
          goodStep texts embed bs0 s hInv hlt hbs
        have hf2 : texts.length - s2.current_index ≤ fuel := by omega
        obtain ⟨sf, hrun, hInvf, hidxf⟩ := ih s2 hInv2 hf2
        refine ⟨sf, ?_, hInvf, hidxf⟩
        simp only [loopRun, if_pos hlt, hstep]
        exact hrun
      · have heq : s.current_index = texts.length := by
          have := hInv.idx_le; omega
        exact ⟨s, by simp only [loopRun, if_neg hlt], hInv, heq⟩

/-- C2 amended: in a fresh partition run in which every batch embeds
successfully on its first attempt (so no batch is ever marked failed), the
persisted array ends with exactly one vector per source record and the
vector at index i is the embedding of the prepared text at offset i.  The
original claim fails once a batch is permanently failed: its vectors are
absent and all later vectors shift down (see the counterexample). -/
theorem good_run_alignment (texts : List String) (embed : String → Vec)
    (bs0 fuel : Nat) (hbs : 0 < bs0) (hfuel : texts.length ≤ fuel) :
    ∃ sf, loopRun texts (goodScript texts embed) fuel (resumeInit [] [] bs0)
        = .ok sf ∧
      sf.persisted = texts.map embed ∧
      sf.persisted.length = texts.length := by
  have hInv0 : GoodInv texts embed bs0 (resumeInit [] [] bs0) := by
    refine ⟨rfl, ?_, rfl, rfl, ?_⟩
    · exact Nat.zero_le _
    · intro k _; rfl
  obtain ⟨sf, hrun, hInvf, hidxf⟩ :=
    goodRun texts embed bs0 hbs fuel (resumeInit [] [] bs0) hInv0
      (by simp [resumeInit]; omega)
  refine ⟨sf, hrun, ?_, ?_⟩
  · rw [hInvf.per, hInvf.emb, hidxf, List.take_length]
  · rw [hInvf.per, hInvf.emb, hidxf, List.take_length, List.length_map]

/-- Witness for good_run_alignment on a three-text partition. -/
theorem good_run_alignment_witness :
    ∃ sf, loopRun ["ab", "c", "def"]
        (goodScript ["ab", "c", "def"] String.length) 3
        (resumeInit [] [] 2) = .ok sf ∧
      sf.persisted = ["ab", "c", "def"].map String.length ∧
      sf.persisted.length = ["ab", "c", "def"].length :=
  good_run_alignment ["ab", "c", "def"] String.length 2 3 (by decide)
    (by decide)
